import Mathlib

/-!
Shallow embedding of the sensorika.uz scraper (`src/main.py`).

The HTTP fetch, routing and template rendering are external collaborators;
each handler is modelled as a function of the already-fetched, parsed
document. The BeautifulSoup operations the code uses (`find`, `find_all`,
`find_parent`, `.text`, `.string`, `tag[attr]`, `tag.get(attr)`) are given
a direct document-tree semantics, and Python-level failures (`KeyError`,
`AttributeError`) as well as `HTTPException` are made explicit in an
`Except` result type.
-/

set_option autoImplicit false

/-- A parsed HTML node: a text node (NavigableString) or an element with a
tag name, class token list, attribute list and children. -/
inductive Node where
  | text (s : String)
  | elem (tag : String) (classes : List String) (attrs : List (String × String)) (children : List Node)
deriving Repr

def childrenOf : Node → List Node
  | Node.text _ => []
  | Node.elem _ _ _ ch => ch

mutual

/-- `tag.text` in BeautifulSoup: the concatenation of every descendant
string in document order. -/
def nodeText : Node → String
  | Node.text s => s
  | Node.elem _ _ _ ch => nodeTextList ch

def nodeTextList : List Node → String
  | [] => ""
  | c :: rest => nodeText c ++ nodeTextList rest

end

/-- `tag.string` in BeautifulSoup: defined exactly when the node reaches a
single string through a chain of only children. -/
def tagString : Node → Option String
  | Node.text s => some s
  | Node.elem _ _ _ [c] => tagString c
  | Node.elem _ _ _ _ => Option.none

/-- `tag.get(k)`: attribute lookup, `None` when absent. -/
def attrGet (n : Node) (k : String) : Option String :=
  match n with
  | Node.elem _ _ ats _ => (ats.find? (fun p => p.1 == k)).map Prod.snd
  | Node.text _ => Option.none

mutual

/-- A subtree's nodes in document (preorder) order. -/
def allNodesTree : Node → List Node
  | Node.text s => [Node.text s]
  | Node.elem t cl ats ch => Node.elem t cl ats ch :: allNodes ch

/-- Every node of the forest in document (preorder) order. -/
def allNodes : List Node → List Node
  | [] => []
  | c :: rest => allNodesTree c ++ allNodes rest

end

mutual

/-- A subtree's nodes with ancestor chains, nearest ancestor first (the
information `find_parent` walks). -/
def allNodesAncTree (anc : List Node) : Node → List (Node × List Node)
  | Node.text s => [(Node.text s, anc)]
  | Node.elem t cl ats ch =>
      (Node.elem t cl ats ch, anc) :: allNodesAnc (Node.elem t cl ats ch :: anc) ch

/-- Document-order traversal of a forest paired with each node's ancestor
chain, nearest ancestor first. -/
def allNodesAnc (anc : List Node) : List Node → List (Node × List Node)
  | [] => []
  | c :: rest => allNodesAncTree anc c ++ allNodesAnc anc rest

end

/-- `tag.find_all(pred)`: every matching descendant in document order. -/
def findAll (p : Node → Bool) (n : Node) : List Node :=
  (allNodes (childrenOf n)).filter p

/-- `tag.find(pred)`: the first matching descendant in document order. -/
def findFirst (p : Node → Bool) (n : Node) : Option Node :=
  (findAll p n).head?

/-- `tag.find(pred)` returning the match together with its ancestor chain,
so that a subsequent `find_parent` can be interpreted. -/
def findFirstAnc (p : Node → Bool) (n : Node) : Option (Node × List Node) :=
  ((allNodesAnc [] (childrenOf n)).filter (fun q => p q.1)).head?

def isElem (n : Node) (t : String) : Bool :=
  match n with
  | Node.elem tag _ _ _ => tag == t
  | Node.text _ => false

def hasClass (n : Node) (c : String) : Bool :=
  match n with
  | Node.elem _ cls _ _ => cls.contains c
  | Node.text _ => false

def isDivClass (c : String) (n : Node) : Bool := isElem n "div" && hasClass n c

def isAClass (c : String) (n : Node) : Bool := isElem n "a" && hasClass n c

def isArticleFull (n : Node) : Bool := isElem n "article" && hasClass n "full"

/-- JSON-serializable Python values as returned by the handlers. -/
inductive PyVal where
  | none
  | int (i : Int)
  | str (s : String)
  | list (l : List PyVal)
  | dict (d : List (String × PyVal))
deriving Repr

abbrev PyDict := List (String × PyVal)

def dictGet (d : PyDict) (k : String) : Option PyVal :=
  (d.find? (fun p => p.1 == k)).map Prod.snd

def pyOptInt : Option Int → PyVal
  | some i => PyVal.int i
  | Option.none => PyVal.none

def pyOptStr : Option String → PyVal
  | some s => PyVal.str s
  | Option.none => PyVal.none

/-- The apostrophe character (kept out of string literals). -/
def apos : String := String.singleton (Char.ofNat 39)

/-- Prefix test on character lists. -/
def leadsWith : List Char → List Char → Bool
  | [], _ => true
  | _ :: _, [] => false
  | p :: ps, c :: cs => p == c && leadsWith ps cs

/-- Python `s.split(sep)` over characters: scan left to right for the
separator, keeping empty parts (the accumulator holds the current part
reversed). The `Nat` argument is structural fuel; every recursive call
consumes at least one character, so fuel equal to the list length is
always sufficient and the zero-fuel case is unreachable from `pySplit`. -/
def splitOnChars (sep : List Char) : Nat → List Char → List Char → List (List Char)
  | _, [], acc => [acc.reverse]
  | 0, l, acc => [acc.reverse ++ l]
  | Nat.succ fuel, c :: rest, acc =>
    if leadsWith sep (c :: rest) then
      acc.reverse :: splitOnChars sep fuel (rest.drop (sep.length - 1)) []
    else splitOnChars sep fuel rest (c :: acc)

/-- Python `s.split(sep)` for a nonempty string separator. -/
def pySplit (s sep : String) : List String :=
  (splitOnChars sep.toList s.toList.length s.toList []).map String.mk

/-- Python `s.strip()`: whitespace removed from both ends. -/
def pyStrip (s : String) : String :=
  String.mk (((s.toList.dropWhile Char.isWhitespace).reverse.dropWhile Char.isWhitespace).reverse)

/-- Python `s.lower()` (the inputs here involve only ASCII case mapping). -/
def pyLower (s : String) : String := String.mk (s.toList.map Char.toLower)

/-- Python `s.replace(pat, rep)` for a nonempty pattern, over characters,
with structural fuel as in `splitOnChars`. -/
def replaceChars (pat rep : List Char) : Nat → List Char → List Char
  | _, [] => []
  | 0, l => l
  | Nat.succ fuel, c :: rest =>
    if leadsWith pat (c :: rest) && !pat.isEmpty then
      rep ++ replaceChars pat rep fuel (rest.drop (pat.length - 1))
    else c :: replaceChars pat rep fuel rest

def pyReplace (s pat rep : String) : String :=
  String.mk (replaceChars pat.toList rep.toList s.toList.length s.toList)

/-- Continuation of a Python integer-literal digit run: digits with single
underscores allowed only between digits. -/
def pyDigitsAfter : List Char → Bool
  | [] => true
  | c :: rest =>
    if c = '_' then
      match rest with
      | d :: rest2 => d.isDigit && pyDigitsAfter rest2
      | [] => false
    else c.isDigit && pyDigitsAfter rest

def pyDigitGroups : List Char → Bool
  | [] => false
  | d :: rest => d.isDigit && pyDigitsAfter rest

def digitsToNat (cs : List Char) : Nat :=
  cs.foldl (fun a c => a * 10 + (c.toNat - 48)) 0

/-- Python `int(s)` on ASCII input: optional surrounding whitespace, an
optional sign, then digits with single underscores between them; `none`
when the parse fails. (CPython additionally accepts Unicode digits and
Unicode whitespace, which never occur in the inputs considered here.) -/
def pythonInt (s : String) : Option Int :=
  let cs := (pyStrip s).toList
  let signed : Int × List Char :=
    match cs with
    | c :: rest => if c = '+' then (1, rest) else if c = '-' then (-1, rest) else (1, cs)
    | [] => (1, [])
  if pyDigitGroups signed.2 then
    some (signed.1 * Int.ofNat (digitsToNat (signed.2.filter (fun c => c != '_'))))
  else Option.none

/-- Python `pat in s` for a nonempty pattern `pat`. -/
def containsSub (s pat : String) : Bool := (pySplit s pat).length ≥ 2

/-- Python `d[k] = v` on a dict: overwrite in place, append when the key is
new (insertion order is preserved). -/
def dictSet (d : List (String × String)) (k v : String) : List (String × String) :=
  if d.any (fun p => p.1 == k) then d.map (fun p => if p.1 == k then (k, v) else p)
  else d ++ [(k, v)]

/-- Key normalization in `get_student_by_id`:
`.lower().replace(apostrophe, "").replace(" ", "_")`. -/
def normalizeKey (s : String) : String :=
  pyReplace (pyReplace (pyLower s) apos "") " " "_"

/-- Python-level exceptions the handlers can raise besides `HTTPException`. -/
inductive PyErr where
  | keyError (k : String)
  | attributeError (msg : String)
deriving Repr, DecidableEq

structure HTTPError where
  status_code : Nat
  detail : String
deriving Repr, DecidableEq

inductive Err where
  | http (e : HTTPError)
  | py (e : PyErr)
deriving Repr, DecidableEq

/-- Sequential effectful map, mirroring a Python loop whose body may raise:
the first raise aborts the loop. -/
def mapME {α β ε : Type} (f : α → Except ε β) : List α → Except ε (List β)
  | [] => Except.ok []
  | a :: l =>
    match f a with
    | Except.error e => Except.error e
    | Except.ok b =>
      match mapME f l with
      | Except.error e => Except.error e
      | Except.ok bs => Except.ok (b :: bs)

def BASE_URL : String := "https://sensorika.uz"

def FREELANCER_PHRASE : String := "BIZ FRILANSINGDA DAROMAD QILYAPMIZ!"

def msgNomalum : String := "Noma" ++ apos ++ "lum"

def msgTavsif : String := "Tavsif mavjud emas"

def msgSarlavha : String := "Sarlavha mavjud emas"

def msgStudentsEmpty : String := "Hech qanday o" ++ apos ++ "quvchi topilmadi."

def msgNewsSection : String := "Yangiliklar bo" ++ apos ++ "limi topilmadi."

def msgNewsEmpty : String := "Hech qanday yangilik topilmadi."

def msgFreelSection : String := "Frilanserlar bo" ++ apos ++ "limi topilmadi."

def msgFreelEmpty : String := "Hech qanday frilanser topilmadi."

def msgStudentNotFound (student_id : Int) : String :=
  "ID " ++ toString student_id ++ " ga ega o" ++ apos ++ "quvchi topilmadi."

def msgNewsNotFound (news_id : Int) : String :=
  "ID " ++ toString news_id ++ " ga ega yangilik topilmadi."

def msgNoneFindAll : String := "NoneType object has no attribute find_all"

def msgWebError : String := "Ma" ++ apos ++ "lumotlarni yuklashda xatolik yuz berdi."

/-- `tag[k]`: subscript attribute access, raising `KeyError` when absent. -/
def subscr (n : Node) (k : String) : Except PyErr String :=
  match attrGet n k with
  | some v => Except.ok v
  | Option.none => Except.error (PyErr.keyError k)

/-- `link_tag[href] if link_tag else None` from `parse_student_card`. -/
def hrefOpt : Option Node → Except PyErr (Option String)
  | Option.none => Except.ok Option.none
  | some lt =>
    match attrGet lt "href" with
    | some v => Except.ok (some v)
    | Option.none => Except.error (PyErr.keyError "href")

/-- `int(url.split(slash)[-1].split(hyphen)[0])` guarded by try/except:
the id parsed out of the last path segment, `none` on failure. -/
def idFromUrl : Option String → Option Int
  | some u => pythonInt (((pySplit ((pySplit u "/").getLastD "") "-")).headD "")
  | Option.none => Option.none

/-- `BASE_URL + img_tag[src] if img_tag and img_tag.get(src) else None`
(an empty `src` string is falsy in Python). -/
def imgUrlPy (img_tag : Option Node) : PyVal :=
  match img_tag with
  | some im =>
    match attrGet im "src" with
    | some s => if s == "" then PyVal.none else PyVal.str (BASE_URL ++ s)
    | Option.none => PyVal.none
  | Option.none => PyVal.none

/-- `parse_student_card` from main.py. -/
def parse_student_card (item : Node) : Except PyErr PyDict :=
  let link_tag := findFirst (isAClass "short-link") item
  let img_tag := findFirst (fun n => isElem n "img") item
  let title_tag := findFirst (isDivClass "short-title") item
  let desc_tag := findFirst (isDivClass "short-desc") item
  match hrefOpt link_tag with
  | Except.error e => Except.error e
  | Except.ok url =>
    Except.ok
      [ ("id", pyOptInt (idFromUrl url)),
        ("name", PyVal.str (match title_tag with
          | some t => pyStrip (nodeText t)
          | Option.none => msgNomalum)),
        ("description", PyVal.str (match desc_tag with
          | some d => pyStrip (nodeText d)
          | Option.none => msgTavsif)),
        ("url", pyOptStr url),
        ("image_url", imgUrlPy img_tag) ]

/-- `get_all_students` from main.py, as a function of the fetched home page. -/
def get_all_students (soup : Node) : Except Err (List PyDict) :=
  let student_sections := findAll (isDivClass "short-items") soup
  let items := student_sections.foldr (fun sec acc => findAll (isDivClass "short-item") sec ++ acc) []
  match mapME parse_student_card items with
  | Except.error e => Except.error (Err.py e)
  | Except.ok students =>
    if students.isEmpty then Except.error (Err.http ⟨404, msgStudentsEmpty⟩)
    else Except.ok students

/-- Lines 122-125 of main.py: the optional link inside the fmessage block
(`find` on the block, then subscript `href` on the anchor when present). -/
def fmessageHref (full_article : Node) : Except PyErr (Option String) :=
  match findFirst (isDivClass "fmessage") full_article with
  | some fm =>
    match findFirst (fun n => isElem n "a") fm with
    | some a => (subscr a "href").map some
    | Option.none => Except.ok Option.none
  | Option.none => Except.ok Option.none

/-- `get_student_by_id` from main.py, as a function of the fetched detail page. -/
def get_student_by_id (student_id : Int) (student_url : String) (soup : Node) : Except Err PyDict :=
  match findFirst isArticleFull soup with
  | Option.none => Except.error (Err.http ⟨404, msgStudentNotFound student_id⟩)
  | some full_article =>
    let name := match findFirst (fun n => isElem n "h1") full_article with
      | some h => pyStrip (nodeText h)
      | Option.none => msgNomalum
    let info_items := (childrenOf full_article).filter (fun n => isElem n "div")
    let details := info_items.foldl (fun acc item =>
      match findFirst (fun n => isElem n "div") item, findFirst (fun n => isElem n "span") item with
      | some key_tag, some value_tag =>
          dictSet acc (normalizeKey (pyStrip (nodeText key_tag))) (pyStrip (nodeText value_tag))
      | _, _ => acc) []
    match findFirst (isDivClass "fdesc") full_article with
    | Option.none => Except.error (Err.py (PyErr.attributeError msgNoneFindAll))
    | some fdesc =>
      match mapME (fun img => (subscr img "src").map (fun s => BASE_URL ++ s))
          (findAll (fun n => isElem n "img") fdesc) with
      | Except.error e => Except.error (Err.py e)
      | Except.ok images =>
        match fmessageHref full_article with
        | Except.error e => Except.error (Err.py e)
        | Except.ok fp =>
          Except.ok
            [ ("id", PyVal.int student_id),
              ("name", PyVal.str name),
              ("details", PyVal.dict (details.map (fun p => (p.1, PyVal.str p.2)))),
              ("freelance_platform", pyOptStr fp),
              ("images", PyVal.list (images.map PyVal.str)),
              ("source_url", PyVal.str student_url) ]

/-- The news heading locator predicate:
`find("div", class_="sect-title", string="YANGILIKLAR")`. -/
def isNewsTitle (n : Node) : Bool :=
  isDivClass "sect-title" n && (tagString n == some "YANGILIKLAR")

/-- The body of the news listing loop in `get_all_news`. -/
def parseNewsItem (item : Node) : Except PyErr PyDict :=
  let title_tag := findFirst (isDivClass "top-title") item
  let img_tag := findFirst (fun n => isElem n "img") item
  match subscr item "href" with
  | Except.error e => Except.error e
  | Except.ok url =>
    let news_id := pythonInt (((pySplit ((pySplit url "/").getLastD "") "-")).headD "")
    Except.ok
      [ ("id", pyOptInt news_id),
        ("title", PyVal.str (match title_tag with
          | some t => pyStrip (nodeText t)
          | Option.none => msgSarlavha)),
        ("url", PyVal.str url),
        ("image_url", imgUrlPy img_tag) ]

/-- `get_all_news` from main.py, as a function of the fetched home page. -/
def get_all_news (soup : Node) : Except Err (List PyDict) :=
  match findFirstAnc isNewsTitle soup with
  | Option.none => Except.error (Err.http ⟨404, msgNewsSection⟩)
  | some (_, anc) =>
    match anc.find? (isDivClass "sect-col") with
    | Option.none => Except.error (Err.py (PyErr.attributeError msgNoneFindAll))
    | some parent =>
      match mapME parseNewsItem (findAll (isAClass "top-item") parent) with
      | Except.error e => Except.error (Err.py e)
      | Except.ok news_list =>
        if news_list.isEmpty then Except.error (Err.http ⟨404, msgNewsEmpty⟩)
        else Except.ok news_list

/-- Lines 189-191 of main.py: the article body text, formed from the
description container by taking its direct child div elements, stripping
each one, dropping empties and joining with newlines. -/
def newsContent (cd : Node) : String :=
  let text_parts := ((childrenOf cd).filter (fun n => isElem n "div")).map
    (fun p => pyStrip (nodeText p))
  String.intercalate "\n" (text_parts.filter (fun s => s != ""))

/-- `get_news_by_id` from main.py, as a function of the fetched article page. -/
def get_news_by_id (news_id : Int) (news_url : String) (soup : Node) : Except Err PyDict :=
  match findFirst isArticleFull soup with
  | Option.none => Except.error (Err.http ⟨404, msgNewsNotFound news_id⟩)
  | some article =>
    let title := match findFirst (fun n => isElem n "h1") article with
      | some h => pyStrip (nodeText h)
      | Option.none => msgSarlavha
    let content_div := findFirst (isDivClass "fdesc") article
    let content_text := match content_div with
      | some cd => newsContent cd
      | Option.none => ""
    match (match content_div with
      | some cd => mapME (fun img => (subscr img "src").map (fun s => BASE_URL ++ s))
          (findAll (fun n => isElem n "img") cd)
      | Option.none => Except.ok []) with
    | Except.error e => Except.error (Err.py e)
    | Except.ok images =>
      Except.ok
        [ ("id", PyVal.int news_id),
          ("title", PyVal.str title),
          ("content", PyVal.str content_text),
          ("images", PyVal.list (images.map PyVal.str)),
          ("source_url", PyVal.str news_url) ]

/-- The freelancer section locator predicate:
`lambda tag: tag.name == div and PHRASE in tag.text`. -/
def isFreelancerHeader (n : Node) : Bool :=
  isElem n "div" && containsSub (nodeText n) FREELANCER_PHRASE

/-- `get_freelancers` from main.py, as a function of the fetched home page. -/
def get_freelancers (soup : Node) : Except Err (List PyDict) :=
  match findFirstAnc isFreelancerHeader soup with
  | Option.none => Except.error (Err.http ⟨404, msgFreelSection⟩)
  | some (_, anc) =>
    match anc.find? (isDivClass "sect") with
    | Option.none => Except.error (Err.py (PyErr.attributeError msgNoneFindAll))
    | some sect =>
      match mapME parse_student_card (findAll (isDivClass "short-item") sect) with
      | Except.error e => Except.error (Err.py e)
      | Except.ok freelancers =>
        if freelancers.isEmpty then Except.error (Err.http ⟨404, msgFreelEmpty⟩)
        else Except.ok freelancers

/-- The template context `web_home` passes to `index.html` (the request
object and the rendering itself are external collaborators). -/
structure HomeCtx where
  students : List PyDict
  news : List PyDict
  freelancers : List PyDict
  error : Option String
deriving Repr

/-- `web_home` from main.py: the three listings in order, truncated to six
records each; `HTTPException` is caught and rendered as an inline error
context, while Python-level errors propagate uncaught. -/
def web_home (soup : Node) : Except PyErr HomeCtx :=
  match get_all_students soup with
  | Except.error (Err.py e) => Except.error e
  | Except.error (Err.http _) => Except.ok ⟨[], [], [], some msgWebError⟩
  | Except.ok students =>
    match get_all_news soup with
    | Except.error (Err.py e) => Except.error e
    | Except.error (Err.http _) => Except.ok ⟨[], [], [], some msgWebError⟩
    | Except.ok news =>
      match get_freelancers soup with
      | Except.error (Err.py e) => Except.error e
      | Except.error (Err.http _) => Except.ok ⟨[], [], [], some msgWebError⟩
      | Except.ok freelancers =>
        Except.ok ⟨students.take 6, news.take 6, freelancers.take 6, Option.none⟩

/-- Modelled from the spec: the SummaryRecord shape of section 3 of the
specification ({id: optional integer, name: string, description: string,
url: optional string, image_url: optional string}), stated over returned
dictionaries for the refinement comparison of claim C1. -/
def SummaryShaped (d : PyDict) : Prop :=
  (dictGet d "id" = some PyVal.none ∨ ∃ i, dictGet d "id" = some (PyVal.int i)) ∧
  (∃ s, dictGet d "name" = some (PyVal.str s)) ∧
  (∃ s, dictGet d "description" = some (PyVal.str s)) ∧
  (dictGet d "url" = some PyVal.none ∨ ∃ s, dictGet d "url" = some (PyVal.str s)) ∧
  (dictGet d "image_url" = some PyVal.none ∨ ∃ s, dictGet d "image_url" = some (PyVal.str s))

/-- The relative paths carried by `src` attributes of `img` descendants of a
node: the raw markup data image URLs are built from. -/
def imgSrcs (n : Node) : List String :=
  (findAll (fun m => isElem m "img") n).filterMap (fun m => attrGet m "src")

/-- Home page fragment for C1: a news column with heading and one anchor. -/
def c1doc : Node :=
  Node.elem "html" [] []
    [Node.elem "div" ["sect-col"] []
      [Node.elem "div" ["sect-title"] [] [Node.text "YANGILIKLAR"],
       Node.elem "a" ["top-item"] [("href", "/yangiliklar/5049-mashgulot.html")]
         [Node.elem "div" ["top-title"] [] [Node.text "Mashgulot"]]]]

/-- The single item `get_all_news` extracts from `c1doc`. -/
def c1item : PyDict :=
  [ ("id", PyVal.int 5049),
    ("title", PyVal.str "Mashgulot"),
    ("url", PyVal.str "/yangiliklar/5049-mashgulot.html"),
    ("image_url", PyVal.none) ]

/-- Detail page for C2: the full-article root is present, the description
container (class fdesc) is absent. -/
def c2doc : Node :=
  Node.elem "html" [] []
    [Node.elem "article" ["full"] [] [Node.elem "h1" [] [] [Node.text "Ali Valiyev"]]]

/-- Card for C3 whose link URL has no hyphen yet is all numeric. -/
def c3nohyph : Node :=
  Node.elem "div" ["short-item"] []
    [Node.elem "a" ["short-link"] [("href", "2212")] []]

/-- Card whose link URL ends in 2212-sevinova-jasmina.html. -/
def c3good : Node :=
  Node.elem "div" ["short-item"] []
    [Node.elem "a" ["short-link"]
      [("href", "/students/kompyuter-savodxonligi/2212-sevinova-jasmina.html")] []]

/-- Card whose link URL ends in abc-no-number.html. -/
def c3abc : Node :=
  Node.elem "div" ["short-item"] []
    [Node.elem "a" ["short-link"] [("href", "/students/abc-no-number.html")] []]

/-- The record extracted from `c3nohyph`. -/
def c3nohyphDict : PyDict :=
  [ ("id", PyVal.int 2212),
    ("name", PyVal.str msgNomalum),
    ("description", PyVal.str msgTavsif),
    ("url", PyVal.str "2212"),
    ("image_url", PyVal.none) ]

/-- The record extracted from `c3good`. -/
def c3goodDict : PyDict :=
  [ ("id", PyVal.int 2212),
    ("name", PyVal.str msgNomalum),
    ("description", PyVal.str msgTavsif),
    ("url", PyVal.str "/students/kompyuter-savodxonligi/2212-sevinova-jasmina.html"),
    ("image_url", PyVal.none) ]

/-- The record extracted from `c3abc`. -/
def c3abcDict : PyDict :=
  [ ("id", PyVal.none),
    ("name", PyVal.str msgNomalum),
    ("description", PyVal.str msgTavsif),
    ("url", PyVal.str "/students/abc-no-number.html"),
    ("image_url", PyVal.none) ]

/-- Card with no link element at all. -/
def c3nolink : Node :=
  Node.elem "div" ["short-item"] [] [Node.elem "div" ["short-title"] [] [Node.text "A"]]

/-- Article page for C4 with no description container. -/
def c4absent : Node :=
  Node.elem "html" [] [] [Node.elem "article" ["full"] [] []]

/-- Description container for C4 with two nonempty direct div children,
one empty div child and one non-div child. -/
def c4cd : Node :=
  Node.elem "div" ["fdesc"] []
    [Node.elem "div" [] [] [Node.text "  p1 "],
     Node.elem "div" [] [] [Node.text ""],
     Node.elem "span" [] [] [Node.text "ignored"],
     Node.elem "div" [] [] [Node.text "p2"]]

/-- The article root of `c4doc`. -/
def c4art : Node := Node.elem "article" ["full"] [] [c4cd]

/-- Article page for C4 built around `c4cd`. -/
def c4doc : Node := Node.elem "html" [] [] [c4art]

/-- The record `get_news_by_id 3 "u"` extracts from `c4doc`. -/
def c4dict : PyDict :=
  [ ("id", PyVal.int 3),
    ("title", PyVal.str msgSarlavha),
    ("content", PyVal.str "p1\np2"),
    ("images", PyVal.list []),
    ("source_url", PyVal.str "u") ]

/-- Home page for C5 with no news heading at all. -/
def c5missing : Node :=
  Node.elem "html" [] [] [Node.elem "div" ["sect-col"] [] [Node.text "boshqa"]]

/-- The news heading node used in C5 and C6 documents. -/
def newsHead : Node := Node.elem "div" ["sect-title"] [] [Node.text "YANGILIKLAR"]

/-- The news column of `c5doc`. -/
def c5col : Node :=
  Node.elem "div" ["sect-col"] []
    [newsHead,
     Node.elem "a" ["top-item"] [("href", "/yangiliklar/1-a.html")] [],
     Node.elem "a" ["top-item"] [("href", "/yangiliklar/2-b.html")] []]

/-- Home page for C5 with the news heading and two anchors in its column. -/
def c5doc : Node := Node.elem "html" [] [] [c5col]

/-- Home page for C6 with zero short-items sections. -/
def c6empty : Node :=
  Node.elem "html" [] [] [Node.elem "div" ["sect"] [] [Node.text "bosh"]]

/-- The news column of `c6newsdoc`, holding zero top items. -/
def c6col : Node := Node.elem "div" ["sect-col"] [] [newsHead]

/-- Home page for C6 whose news column exists but holds zero top items. -/
def c6newsdoc : Node := Node.elem "html" [] [] [c6col]

/-- Detail page for C7 lacking the full-article root. -/
def c7doc : Node :=
  Node.elem "html" [] [] [Node.elem "div" ["plain"] [] [Node.text "404"]]

/-- Card for C8 with an image carrying a relative src path. -/
def c8card : Node :=
  Node.elem "div" ["short-item"] []
    [Node.elem "a" ["short-link"] [("href", "/students/7-x.html")] [],
     Node.elem "img" [] [("src", "/uploads/7.jpg")] []]

/-- Student detail page for C8 whose description container holds an image. -/
def c8sdoc : Node :=
  Node.elem "html" [] []
    [Node.elem "article" ["full"] []
      [Node.elem "div" ["fdesc"] []
        [Node.elem "img" [] [("src", "/uploads/a.png")] []]]]

/-- Home page for C8 whose single news anchor carries an image. -/
def c8newsdoc : Node :=
  Node.elem "html" [] []
    [Node.elem "div" ["sect-col"] []
      [Node.elem "div" ["sect-title"] [] [Node.text "YANGILIKLAR"],
       Node.elem "a" ["top-item"] [("href", "/yangiliklar/3-c.html")]
         [Node.elem "img" [] [("src", "/uploads/n.png")] []]]]

/-- The record extracted from `c8card`. -/
def c8cardDict : PyDict :=
  [ ("id", PyVal.int 7),
    ("name", PyVal.str msgNomalum),
    ("description", PyVal.str msgTavsif),
    ("url", PyVal.str "/students/7-x.html"),
    ("image_url", PyVal.str (BASE_URL ++ "/uploads/7.jpg")) ]

/-- The record `get_student_by_id 7 "u"` extracts from `c8sdoc`. -/
def c8sDict : PyDict :=
  [ ("id", PyVal.int 7),
    ("name", PyVal.str msgNomalum),
    ("details", PyVal.dict []),
    ("freelance_platform", PyVal.none),
    ("images", PyVal.list [PyVal.str (BASE_URL ++ "/uploads/a.png")]),
    ("source_url", PyVal.str "u") ]

/-- The record `get_news_by_id 7 "n"` extracts from `c8sdoc`. -/
def c8nDict : PyDict :=
  [ ("id", PyVal.int 7),
    ("title", PyVal.str msgSarlavha),
    ("content", PyVal.str ""),
    ("images", PyVal.list [PyVal.str (BASE_URL ++ "/uploads/a.png")]),
    ("source_url", PyVal.str "n") ]

/-- The news-listing record extracted from `c8newsdoc`. -/
def c8nlDict : PyDict :=
  [ ("id", PyVal.int 3),
    ("title", PyVal.str msgSarlavha),
    ("url", PyVal.str "/yangiliklar/3-c.html"),
    ("image_url", PyVal.str (BASE_URL ++ "/uploads/n.png")) ]

/-- Card for C9 lacking both the title and the description element. -/
def c9card : Node :=
  Node.elem "div" ["short-item"] []
    [Node.elem "a" ["short-link"] [("href", "/students/9-y.html")] []]

/-- The record `parse_student_card` extracts from `c9card`. -/
def c9dict : PyDict :=
  [ ("id", PyVal.int 9),
    ("name", PyVal.str msgNomalum),
    ("description", PyVal.str msgTavsif),
    ("url", PyVal.str "/students/9-y.html"),
    ("image_url", PyVal.none) ]

/-- A complete home page for C10: one students section with seven cards, a
news column with one anchor, and a freelancer section whose sect container
encloses the banner phrase and one card. -/
def c10doc : Node :=
  Node.elem "html" [] []
    [Node.elem "div" ["short-items"] []
      [Node.elem "div" ["short-item"] [] [Node.elem "a" ["short-link"] [("href", "/students/1-a.html")] []],
       Node.elem "div" ["short-item"] [] [Node.elem "a" ["short-link"] [("href", "/students/2-b.html")] []],
       Node.elem "div" ["short-item"] [] [Node.elem "a" ["short-link"] [("href", "/students/3-c.html")] []],
       Node.elem "div" ["short-item"] [] [Node.elem "a" ["short-link"] [("href", "/students/4-d.html")] []],
       Node.elem "div" ["short-item"] [] [Node.elem "a" ["short-link"] [("href", "/students/5-e.html")] []],
       Node.elem "div" ["short-item"] [] [Node.elem "a" ["short-link"] [("href", "/students/6-f.html")] []],
       Node.elem "div" ["short-item"] [] [Node.elem "a" ["short-link"] [("href", "/students/7-g.html")] []]],
     Node.elem "div" ["sect-col"] []
      [Node.elem "div" ["sect-title"] [] [Node.text "YANGILIKLAR"],
       Node.elem "a" ["top-item"] [("href", "/yangiliklar/8-h.html")] []],
     Node.elem "div" ["sect"] []
      [Node.elem "div" ["sect-content"] []
        [Node.text "BIZ FRILANSINGDA DAROMAD QILYAPMIZ!",
         Node.elem "div" ["short-item"] []
           [Node.elem "a" ["short-link"] [("href", "/students/9-i.html")] []]]]]

theorem mem_of_head? {α : Type} {l : List α} {x : α} (h : l.head? = some x) : x ∈ l := by
  cases l with
  | nil => simp at h
  | cons a as => simp at h; subst h; exact List.mem_cons_self a as

theorem dictGet_cons {k k2 : String} {v : PyVal} {d : PyDict} :
    dictGet ((k2, v) :: d) k = if (k2 == k) then some v else dictGet d k := by
  by_cases h : (k2 == k) = true
  · simp [dictGet, List.find?, h]
  · simp only [Bool.not_eq_true] at h
    simp [dictGet, List.find?, h]

theorem dictGet_nil {k : String} : dictGet ([] : PyDict) k = Option.none := rfl

theorem mapME_ok_mem {α β ε : Type} {f : α → Except ε β} :
    ∀ {l : List α} {l2 : List β}, mapME f l = Except.ok l2 → ∀ b ∈ l2, ∃ a ∈ l, f a = Except.ok b := by
  intro l
  induction l with
  | nil =>
    intro l2 h b hb
    rw [mapME] at h
    cases h
    simp at hb
  | cons a as ih =>
    intro l2 h b hb
    rw [mapME] at h
    cases hfa : f a with
    | error e => rw [hfa] at h; cases h
    | ok v =>
      rw [hfa] at h
      cases hrec : mapME f as with
      | error e => rw [hrec] at h; cases h
      | ok vs =>
        rw [hrec] at h
        cases h
        rcases List.mem_cons.mp hb with hb | hb
        · subst hb; exact ⟨a, List.mem_cons_self a as, hfa⟩
        · obtain ⟨a2, ha2, hfa2⟩ := ih hrec b hb
          exact ⟨a2, List.mem_cons_of_mem a ha2, hfa2⟩

theorem mem_allNodes_trans :
    ∀ (l : List Node) (b a : Node), b ∈ allNodes l → a ∈ allNodes (childrenOf b) → a ∈ allNodes l
  | [], b, a, hb, _ => by simp [allNodes] at hb
  | c :: rest, b, a, hb, ha => by
    rw [allNodes, List.mem_append] at hb
    rw [allNodes, List.mem_append]
    rcases hb with hb | hb
    · left
      cases c with
      | text s =>
        simp [allNodesTree] at hb
        subst hb
        simp [childrenOf, allNodes] at ha
      | elem t cl ats ch =>
        rw [allNodesTree, List.mem_cons] at hb
        rw [allNodesTree, List.mem_cons]
        rcases hb with hb | hb
        · subst hb
          simp only [childrenOf] at ha
          exact Or.inr ha
        · exact Or.inr (mem_allNodes_trans ch b a hb ha)
    · exact Or.inr (mem_allNodes_trans rest b a hb ha)
termination_by l => sizeOf l

theorem allNodesAnc_map_fst :
    ∀ (a0 : List Node) (l : List Node), (allNodesAnc a0 l).map Prod.fst = allNodes l
  | _, [] => by simp [allNodesAnc, allNodes]
  | a0, c :: rest => by
    rw [allNodesAnc, allNodes, List.map_append, allNodesAnc_map_fst a0 rest]
    cases c with
    | text s => simp [allNodesAncTree, allNodesTree]
    | elem t cl ats ch =>
      rw [allNodesAncTree, allNodesTree]
      simp only [List.map_cons, List.cons_append, List.nil_append]
      rw [allNodesAnc_map_fst (Node.elem t cl ats ch :: a0) ch]
termination_by _ l => sizeOf l

theorem allNodesAnc_fst_mem {a0 : List Node} {l : List Node} {x : Node} {anc : List Node}
    (h : (x, anc) ∈ allNodesAnc a0 l) : x ∈ allNodes l := by
  rw [← allNodesAnc_map_fst a0 l]
  exact List.mem_map.mpr ⟨(x, anc), h, rfl⟩

theorem allNodesAnc_anc_mem :
    ∀ (l : List Node) (a0 : List Node) (x : Node) (anc : List Node),
      (x, anc) ∈ allNodesAnc a0 l → ∀ y ∈ anc, y ∈ allNodes l ∨ y ∈ a0
  | [], _, x, anc, h, y, hy => by simp [allNodesAnc] at h
  | c :: rest, a0, x, anc, h, y, hy => by
    rw [allNodesAnc, List.mem_append] at h
    rw [allNodes, List.mem_append]
    rcases h with h | h
    · cases c with
      | text s =>
        simp [allNodesAncTree] at h
        obtain ⟨_, h2⟩ := h
        subst h2
        exact Or.inr hy
      | elem t cl ats ch =>
        rw [allNodesAncTree, List.mem_cons] at h
        rcases h with h | h
        · cases h
          exact Or.inr hy
        · rcases allNodesAnc_anc_mem ch (Node.elem t cl ats ch :: a0) x anc h y hy with h2 | h2
          · refine Or.inl (Or.inl ?_)
            rw [allNodesTree, List.mem_cons]
            exact Or.inr h2
          · rcases List.mem_cons.mp h2 with h3 | h3
            · subst h3
              refine Or.inl (Or.inl ?_)
              rw [allNodesTree]
              exact List.mem_cons_self _ _
            · exact Or.inr h3
    · rcases allNodesAnc_anc_mem rest a0 x anc h y hy with h2 | h2
      · exact Or.inl (Or.inr h2)
      · exact Or.inr h2
termination_by l => sizeOf l

theorem findFirst_mem {p : Node → Bool} {n x : Node} (h : findFirst p n = some x) :
    x ∈ allNodes (childrenOf n) ∧ p x = true := by
  have hx := mem_of_head? h
  rw [findAll] at hx
  exact List.mem_filter.mp hx

theorem findAll_mem {p : Node → Bool} {n x : Node} (h : x ∈ findAll p n) :
    x ∈ allNodes (childrenOf n) ∧ p x = true := by
  rw [findAll] at h
  exact List.mem_filter.mp h

theorem findFirstAnc_mem {p : Node → Bool} {n x : Node} {anc : List Node}
    (h : findFirstAnc p n = some (x, anc)) :
    (x, anc) ∈ allNodesAnc [] (childrenOf n) ∧ p x = true := by
  have hx := mem_of_head? h
  have := List.mem_filter.mp hx
  exact ⟨this.1, this.2⟩

theorem mem_imgSrcs {n im : Node} {r : String} (him : im ∈ allNodes (childrenOf n))
    (hp : isElem im "img" = true) (hr : attrGet im "src" = some r) : r ∈ imgSrcs n := by
  rw [imgSrcs]
  refine List.mem_filterMap.mpr ⟨im, ?_, hr⟩
  rw [findAll]
  exact List.mem_filter.mpr ⟨him, hp⟩

theorem imgUrlPy_cases (o : Option Node) :
    imgUrlPy o = PyVal.none ∨ ∃ s, imgUrlPy o = PyVal.str s := by
  rw [imgUrlPy.eq_def]
  split
  · split
    · split
      · exact Or.inl rfl
      · exact Or.inr ⟨_, rfl⟩
    · exact Or.inl rfl
  · exact Or.inl rfl

theorem imgUrlPy_str {o : Option Node} {u : String} (h : imgUrlPy o = PyVal.str u) :
    ∃ im r, o = some im ∧ attrGet im "src" = some r ∧ u = BASE_URL ++ r := by
  rw [imgUrlPy.eq_def] at h
  split at h
  · rename_i im
    split at h
    · rename_i s hat
      split at h
      · cases h
      · injection h with h2
        exact ⟨im, s, rfl, hat, h2.symm⟩
    · cases h
  · cases h

theorem parse_student_card_ok {item : Node} {d : PyDict}
    (h : parse_student_card item = Except.ok d) :
    ∃ url,
      hrefOpt (findFirst (isAClass "short-link") item) = Except.ok url ∧
      d = [ ("id", pyOptInt (idFromUrl url)),
            ("name", PyVal.str (match findFirst (isDivClass "short-title") item with
              | some t => pyStrip (nodeText t)
              | Option.none => msgNomalum)),
            ("description", PyVal.str (match findFirst (isDivClass "short-desc") item with
              | some dt => pyStrip (nodeText dt)
              | Option.none => msgTavsif)),
            ("url", pyOptStr url),
            ("image_url", imgUrlPy (findFirst (fun n => isElem n "img") item)) ] := by
  rw [parse_student_card] at h
  cases hh : hrefOpt (findFirst (isAClass "short-link") item) with
  | error e => rw [hh] at h; cases h
  | ok url =>
    rw [hh] at h
    cases h
    exact ⟨url, rfl, rfl⟩

theorem parseNewsItem_ok {item : Node} {d : PyDict}
    (h : parseNewsItem item = Except.ok d) :
    ∃ url,
      subscr item "href" = Except.ok url ∧
      d = [ ("id", pyOptInt (pythonInt (((pySplit ((pySplit url "/").getLastD "") "-")).headD ""))),
            ("title", PyVal.str (match findFirst (isDivClass "top-title") item with
              | some t => pyStrip (nodeText t)
              | Option.none => msgSarlavha)),
            ("url", PyVal.str url),
            ("image_url", imgUrlPy (findFirst (fun n => isElem n "img") item)) ] := by
  rw [parseNewsItem] at h
  cases hh : subscr item "href" with
  | error e => rw [hh] at h; cases h
  | ok url =>
    rw [hh] at h
    cases h
    exact ⟨url, rfl, rfl⟩

theorem get_all_news_ok {soup : Node} {l : List PyDict} (h : get_all_news soup = Except.ok l) :
    ∃ x anc parent, findFirstAnc isNewsTitle soup = some (x, anc) ∧
      anc.find? (isDivClass "sect-col") = some parent ∧
      mapME parseNewsItem (findAll (isAClass "top-item") parent) = Except.ok l ∧ l ≠ [] := by
  rw [get_all_news] at h
  split at h
  · cases h
  · rename_i x anc hf
    split at h
    · cases h
    · rename_i parent hp
      split at h
      · cases h
      · rename_i nl hm
        split at h
        · cases h
        · rename_i hemp
          cases h
          exact ⟨x, anc, parent, hf, hp, hm, by simpa using hemp⟩

theorem get_all_students_ok {soup : Node} {l : List PyDict}
    (h : get_all_students soup = Except.ok l) :
    mapME parse_student_card
      ((findAll (isDivClass "short-items") soup).foldr
        (fun sec acc => findAll (isDivClass "short-item") sec ++ acc) []) = Except.ok l ∧
    l ≠ [] := by
  rw [get_all_students] at h
  split at h
  · cases h
  · rename_i students hm
    split at h
    · cases h
    · rename_i hemp
      cases h
      exact ⟨hm, by simpa using hemp⟩

theorem get_freelancers_ok {soup : Node} {l : List PyDict}
    (h : get_freelancers soup = Except.ok l) : l ≠ [] := by
  rw [get_freelancers] at h
  split at h
  · cases h
  · split at h
    · cases h
    · split at h
      · cases h
      · split at h
        · cases h
        · rename_i hemp
          cases h
          simpa using hemp

theorem get_student_by_id_ok {sid : Int} {surl : String} {soup : Node} {d : PyDict}
    (h : get_student_by_id sid surl soup = Except.ok d) :
    ∃ art fd images,
      findFirst isArticleFull soup = some art ∧
      findFirst (isDivClass "fdesc") art = some fd ∧
      mapME (fun img => (subscr img "src").map (fun s => BASE_URL ++ s))
        (findAll (fun n => isElem n "img") fd) = Except.ok images ∧
      dictGet d "images" = some (PyVal.list (images.map PyVal.str)) := by
  rw [get_student_by_id] at h
  split at h
  · cases h
  · rename_i art hart
    dsimp only at h
    split at h
    · cases h
    · rename_i fd hfd
      split at h
      · cases h
      · rename_i images him
        split at h
        · cases h
        · rename_i fp hfp
          cases h
          refine ⟨art, fd, images, hart, hfd, him, ?_⟩
          simp [dictGet_cons]

theorem get_news_by_id_ok {nid : Int} {nurl : String} {soup : Node} {d : PyDict}
    (h : get_news_by_id nid nurl soup = Except.ok d) :
    ∃ art, findFirst isArticleFull soup = some art ∧
      ((findFirst (isDivClass "fdesc") art = Option.none ∧
          dictGet d "content" = some (PyVal.str "") ∧
          dictGet d "images" = some (PyVal.list [])) ∨
        (∃ cd images, findFirst (isDivClass "fdesc") art = some cd ∧
          mapME (fun img => (subscr img "src").map (fun s => BASE_URL ++ s))
            (findAll (fun n => isElem n "img") cd) = Except.ok images ∧
          dictGet d "content" = some (PyVal.str (newsContent cd)) ∧
          dictGet d "images" = some (PyVal.list (images.map PyVal.str)))) := by
  rw [get_news_by_id] at h
  split at h
  · cases h
  · rename_i art hart
    dsimp only at h
    cases hcd : findFirst (isDivClass "fdesc") art with
    | none =>
      rw [hcd] at h
      dsimp only at h
      cases h
      refine ⟨art, hart, Or.inl ⟨hcd, ?_, ?_⟩⟩
      · simp [dictGet_cons]
      · simp [dictGet_cons]
    | some cd =>
      rw [hcd] at h
      dsimp only at h
      split at h
      · cases h
      · rename_i images him
        cases h
        refine ⟨art, hart, Or.inr ⟨cd, images, hcd, him, ?_, ?_⟩⟩
        · simp [dictGet_cons]
        · simp [dictGet_cons]

/-- C2: on a student-detail page whose full-article root is present but
whose description container (the fixed fdesc marker) is absent,
`get_student_by_id` fails by propagating a Python-level error (the
AttributeError from calling find_all on None), whereas `get_news_by_id` on
the same document succeeds, returning empty content and an empty image
list. -/
theorem c2_theorem (sid : Int) (surl : String) (doc art : Node)
    (h1 : findFirst isArticleFull doc = some art)
    (h2 : findFirst (isDivClass "fdesc") art = Option.none) :
    get_student_by_id sid surl doc = Except.error (Err.py (PyErr.attributeError msgNoneFindAll)) ∧
    ∃ d, get_news_by_id sid surl doc = Except.ok d ∧
      dictGet d "content" = some (PyVal.str "") ∧
      dictGet d "images" = some (PyVal.list []) := by
  constructor
  · rw [get_student_by_id, h1]
    dsimp only
    rw [h2]
  · rw [get_news_by_id, h1]
    dsimp only
    rw [h2]
    dsimp only
    refine ⟨_, rfl, ?_, ?_⟩
    · simp [dictGet_cons]
    · simp [dictGet_cons]

/-- Witness for C2 at a concrete document. -/
theorem c2_witness :
    get_student_by_id 1 "u" c2doc = Except.error (Err.py (PyErr.attributeError msgNoneFindAll)) ∧
    ∃ d, get_news_by_id 1 "u" c2doc = Except.ok d ∧
      dictGet d "content" = some (PyVal.str "") ∧
      dictGet d "images" = some (PyVal.list []) :=
  c2_theorem 1 "u" c2doc
    (Node.elem "article" ["full"] [] [Node.elem "h1" [] [] [Node.text "Ali Valiyev"]]) rfl rfl

/-- C7: when a fetched detail page lacks the article root with class full,
both detail operations return a 404 error whose message embeds the
caller-supplied id, and no record is produced. -/
theorem c7_theorem (sid nid : Int) (surl nurl : String) (doc : Node)
    (h : findFirst isArticleFull doc = Option.none) :
    get_student_by_id sid surl doc =
      Except.error (Err.http ⟨404,
        "ID " ++ toString sid ++ " ga ega o" ++ apos ++ "quvchi topilmadi."⟩) ∧
    get_news_by_id nid nurl doc =
      Except.error (Err.http ⟨404,
        "ID " ++ toString nid ++ " ga ega yangilik topilmadi."⟩) := by
  constructor
  · rw [get_student_by_id, h]
    rfl
  · rw [get_news_by_id, h]
    rfl

/-- Witness for C7 at a concrete document. -/
theorem c7_witness :
    get_student_by_id 2212 "u" c7doc =
      Except.error (Err.http ⟨404,
        "ID " ++ toString (2212 : Int) ++ " ga ega o" ++ apos ++ "quvchi topilmadi."⟩) ∧
    get_news_by_id 5049 "v" c7doc =
      Except.error (Err.http ⟨404,
        "ID " ++ toString (5049 : Int) ++ " ga ega yangilik topilmadi."⟩) :=
  c7_theorem 2212 5049 "u" "v" c7doc rfl

/-- C5: when no heading's string matches the fixed literal news title, the
news listing signals the section-not-found 404; when the heading is found,
the processed items are exactly the top-item anchors collected, in
document order, from the enclosing sect-col column container. -/
theorem c5_theorem (doc : Node) :
    (findFirstAnc isNewsTitle doc = Option.none →
      get_all_news doc = Except.error (Err.http ⟨404, msgNewsSection⟩)) ∧
    (∀ x anc parent, findFirstAnc isNewsTitle doc = some (x, anc) →
      anc.find? (isDivClass "sect-col") = some parent →
      get_all_news doc =
        (match mapME parseNewsItem (findAll (isAClass "top-item") parent) with
         | Except.error e => Except.error (Err.py e)
         | Except.ok news_list =>
           if news_list.isEmpty then Except.error (Err.http ⟨404, msgNewsEmpty⟩)
           else Except.ok news_list)) := by
  constructor
  · intro h
    rw [get_all_news, h]
  · intro x anc parent hf hp
    rw [get_all_news, hf]
    dsimp only
    rw [hp]

/-- Witness for C5: the missing-heading document yields the section 404,
and on `c5doc` the listing is computed from the two anchors of its
column. -/
theorem c5_witness :
    get_all_news c5missing = Except.error (Err.http ⟨404, msgNewsSection⟩) ∧
    get_all_news c5doc =
      (match mapME parseNewsItem (findAll (isAClass "top-item") c5col) with
       | Except.error e => Except.error (Err.py e)
       | Except.ok news_list =>
         if news_list.isEmpty then Except.error (Err.http ⟨404, msgNewsEmpty⟩)
         else Except.ok news_list) :=
  ⟨(c5_theorem c5missing).1 rfl,
   (c5_theorem c5doc).2 newsHead [c5col] c5col rfl rfl⟩

/-- C6: a located-but-empty listing never comes back as an empty success
list: the students listing on a home page with zero short-items sections
signals its records-empty 404, the news listing with a located column but
zero top items signals its records-empty 404, and none of the three
listing calls can return the empty list as success. -/
theorem c6_theorem (doc : Node) :
    (findAll (isDivClass "short-items") doc = [] →
      get_all_students doc = Except.error (Err.http ⟨404, msgStudentsEmpty⟩)) ∧
    (∀ x anc parent, findFirstAnc isNewsTitle doc = some (x, anc) →
      anc.find? (isDivClass "sect-col") = some parent →
      findAll (isAClass "top-item") parent = [] →
      get_all_news doc = Except.error (Err.http ⟨404, msgNewsEmpty⟩)) ∧
    (∀ l, get_all_students doc = Except.ok l → l ≠ []) ∧
    (∀ l, get_all_news doc = Except.ok l → l ≠ []) ∧
    (∀ l, get_freelancers doc = Except.ok l → l ≠ []) := by
  refine ⟨?_, ?_, ?_, ?_, ?_⟩
  · intro h
    rw [get_all_students, h]
    rfl
  · intro x anc parent hf hp hi
    rw [get_all_news, hf]
    dsimp only
    rw [hp]
    dsimp only
    rw [hi]
    rfl
  · intro l h
    exact (get_all_students_ok h).2
  · intro l h
    obtain ⟨_, _, _, _, _, _, hne⟩ := get_all_news_ok h
    exact hne
  · intro l h
    exact get_freelancers_ok h

/-- Witness for C6: with zero short-items sections the students listing
signals its records-empty 404, and a located news column with zero top
items signals the news records-empty 404. -/
theorem c6_witness :
    get_all_students c6empty = Except.error (Err.http ⟨404, msgStudentsEmpty⟩) ∧
    get_all_news c6newsdoc = Except.error (Err.http ⟨404, msgNewsEmpty⟩) :=
  ⟨(c6_theorem c6empty).1 rfl,
   (c6_theorem c6newsdoc).2.1 newsHead [c6col] c6col rfl rfl rfl⟩

/-- C4: on a news article page whose full-article root is present, a
missing description container yields empty content and an empty image
list, while a present container yields content formed from its direct
child div elements only, each text stripped, empties dropped, the rest
joined with newline separators. -/
theorem c4_theorem (nid : Int) (nurl : String) (doc art : Node)
    (h1 : findFirst isArticleFull doc = some art) :
    (findFirst (isDivClass "fdesc") art = Option.none →
      ∃ d, get_news_by_id nid nurl doc = Except.ok d ∧
        dictGet d "content" = some (PyVal.str "") ∧
        dictGet d "images" = some (PyVal.list [])) ∧
    (∀ cd d, findFirst (isDivClass "fdesc") art = some cd →
      get_news_by_id nid nurl doc = Except.ok d →
      dictGet d "content" = some (PyVal.str (String.intercalate "\n"
        ((((childrenOf cd).filter (fun n => isElem n "div")).map
          (fun p => pyStrip (nodeText p))).filter (fun s => s != ""))))) := by
  constructor
  · intro h2
    rw [get_news_by_id, h1]
    dsimp only
    rw [h2]
    dsimp only
    refine ⟨_, rfl, ?_, ?_⟩
    · simp [dictGet_cons]
    · simp [dictGet_cons]
  · intro cd d hcd hok
    obtain ⟨art2, hart2, hcases⟩ := get_news_by_id_ok hok
    rw [h1] at hart2
    injection hart2 with hart2
    subst hart2
    rcases hcases with ⟨hnone, _, _⟩ | ⟨cd2, images, hcd2, _, hcontent, _⟩
    · rw [hcd] at hnone
      cases hnone
    · rw [hcd] at hcd2
      injection hcd2 with hcd2
      subst hcd2
      exact hcontent

/-- Witness for C4 at concrete article pages. -/
theorem c4_witness :
    (∃ d, get_news_by_id 3 "u" c4absent = Except.ok d ∧
      dictGet d "content" = some (PyVal.str "") ∧
      dictGet d "images" = some (PyVal.list [])) ∧
    dictGet c4dict "content" = some (PyVal.str (String.intercalate "\n"
      ((((childrenOf c4cd).filter (fun n => isElem n "div")).map
        (fun p => pyStrip (nodeText p))).filter (fun s => s != "")))) :=
  ⟨(c4_theorem 3 "u" c4absent (Node.elem "article" ["full"] [] []) rfl).1 rfl,
   (c4_theorem 3 "u" c4doc c4art rfl).2 c4cd c4dict rfl rfl⟩

/-- C9: every successfully parsed card carries name and description as
always-present strings; a missing title element yields the fixed fallback
name literal (glossed "name unknown" by the spec) and a missing
description element yields the fixed fallback description literal (glossed
"no description"). -/
theorem c9_theorem (item : Node) (d : PyDict)
    (h : parse_student_card item = Except.ok d) :
    (∃ s, dictGet d "name" = some (PyVal.str s)) ∧
    (∃ s, dictGet d "description" = some (PyVal.str s)) ∧
    (findFirst (isDivClass "short-title") item = Option.none →
      dictGet d "name" = some (PyVal.str msgNomalum)) ∧
    (findFirst (isDivClass "short-desc") item = Option.none →
      dictGet d "description" = some (PyVal.str msgTavsif)) := by
  obtain ⟨url, hu, hd⟩ := parse_student_card_ok h
  subst hd
  refine ⟨⟨(match findFirst (isDivClass "short-title") item with
      | some t => pyStrip (nodeText t)
      | Option.none => msgNomalum), by simp [dictGet_cons]⟩,
    ⟨(match findFirst (isDivClass "short-desc") item with
      | some dt => pyStrip (nodeText dt)
      | Option.none => msgTavsif), by simp [dictGet_cons]⟩, ?_, ?_⟩
  · intro ht
    rw [ht]
    simp [dictGet_cons]
  · intro ht
    rw [ht]
    simp [dictGet_cons]

/-- Witness for C9 at a concrete card with neither title nor description. -/
theorem c9_witness :
    dictGet c9dict "name" = some (PyVal.str msgNomalum) ∧
    dictGet c9dict "description" = some (PyVal.str msgTavsif) :=
  ⟨(c9_theorem c9card c9dict rfl).2.2.1 rfl,
   (c9_theorem c9card c9dict rfl).2.2.2 rfl⟩

/-- C3 counterexample: the card `c3nohyph` has a link whose URL is the
hyphenless string "2212" — a failing input by the claim's reading (missing
hyphen) — yet the extractor yields id 2212, not null. -/
theorem c3_counterexample :
    parse_student_card c3nohyph = Except.ok c3nohyphDict ∧
    dictGet c3nohyphDict "id" = some (PyVal.int 2212) ∧
    PyVal.int 2212 ≠ PyVal.none ∧
    ("2212".toList.contains ('-')) = false := by
  refine ⟨rfl, rfl, ?_, rfl⟩
  intro hh
  cases hh

/-- C3 (amended): the id is derived from the url by taking the final slash
segment, splitting at the first hyphen (when no hyphen is present the
whole segment is the prefix) and parsing the prefix as a Python integer;
id is null exactly when the link element is missing (url is then null too)
or the integer parse fails, and the derivation never raises; the
2212-sevinova-jasmina.html URL yields 2212 and the abc-no-number.html URL
yields null. -/
theorem c3_theorem :
    (∀ item, findFirst (isAClass "short-link") item = Option.none →
      ∃ d, parse_student_card item = Except.ok d ∧
        dictGet d "url" = some PyVal.none ∧ dictGet d "id" = some PyVal.none) ∧
    (∀ item lt u, findFirst (isAClass "short-link") item = some lt →
      attrGet lt "href" = some u →
      ∃ d, parse_student_card item = Except.ok d ∧
        dictGet d "id" = some (pyOptInt (pythonInt
          ((pySplit ((pySplit u "/").getLastD "") "-").headD "")))) ∧
    parse_student_card c3good = Except.ok c3goodDict ∧
    dictGet c3goodDict "id" = some (PyVal.int 2212) ∧
    parse_student_card c3abc = Except.ok c3abcDict ∧
    dictGet c3abcDict "id" = some PyVal.none ∧
    (∃ d, parse_student_card c3nolink = Except.ok d ∧
      dictGet d "url" = some PyVal.none ∧ dictGet d "id" = some PyVal.none) := by
  refine ⟨?_, ?_, rfl, rfl, rfl, rfl, ⟨_, rfl, rfl, rfl⟩⟩
  · intro item hl
    rw [parse_student_card, hl]
    dsimp only [hrefOpt]
    refine ⟨_, rfl, ?_, ?_⟩
    · simp [dictGet_cons, pyOptStr]
    · simp [dictGet_cons, idFromUrl, pyOptInt]
  · intro item lt u hl hu
    rw [parse_student_card, hl]
    dsimp only [hrefOpt]
    rw [hu]
    dsimp only
    refine ⟨_, rfl, ?_⟩
    simp [dictGet_cons, idFromUrl]

/-- Witness for C3's amended claim at concrete cards. -/
theorem c3_witness :
    (∃ d, parse_student_card c3nolink = Except.ok d ∧
      dictGet d "url" = some PyVal.none ∧ dictGet d "id" = some PyVal.none) ∧
    (∃ d, parse_student_card c3good = Except.ok d ∧
      dictGet d "id" = some (pyOptInt (pythonInt
        ((pySplit ((pySplit "/students/kompyuter-savodxonligi/2212-sevinova-jasmina.html" "/").getLastD "") "-").headD "")))) :=
  ⟨c3_theorem.1 c3nolink rfl,
   c3_theorem.2.1 c3good
     (Node.elem "a" ["short-link"]
       [("href", "/students/kompyuter-savodxonligi/2212-sevinova-jasmina.html")] [])
     "/students/kompyuter-savodxonligi/2212-sevinova-jasmina.html" rfl rfl⟩

/-- C1 counterexample: on `c1doc` the news listing succeeds, but the
returned item is not SummaryRecord-shaped — it has no description field
(and its human-readable name field is called title, not name). -/
theorem c1_counterexample :
    get_all_news c1doc = Except.ok [c1item] ∧ ¬ SummaryShaped c1item := by
  refine ⟨rfl, ?_⟩
  intro hsh
  obtain ⟨_, _, ⟨s, hs⟩, _, _⟩ := hsh
  simp [c1item, dictGet_cons, dictGet_nil] at hs

/-- C1 (amended): every item returned by a successful news listing call
carries exactly the fields id (optional integer), title (string), url
(string) and image_url (optional string); there is no name and no
description field, so the items are not SummaryRecord-shaped. -/
theorem c1_theorem (doc : Node) (l : List PyDict) (h : get_all_news doc = Except.ok l) :
    ∀ d ∈ l, d.map Prod.fst = ["id", "title", "url", "image_url"] ∧
      (dictGet d "id" = some PyVal.none ∨ ∃ i, dictGet d "id" = some (PyVal.int i)) ∧
      (∃ s, dictGet d "title" = some (PyVal.str s)) ∧
      (∃ s, dictGet d "url" = some (PyVal.str s)) ∧
      (dictGet d "image_url" = some PyVal.none ∨ ∃ s, dictGet d "image_url" = some (PyVal.str s)) := by
  intro d hd
  obtain ⟨x, anc, parent, hf, hp, hm, hne⟩ := get_all_news_ok h
  obtain ⟨item, hitem, hpd⟩ := mapME_ok_mem hm d hd
  obtain ⟨url, hu, hdd⟩ := parseNewsItem_ok hpd
  subst hdd
  refine ⟨rfl, ?_,
    ⟨(match findFirst (isDivClass "top-title") item with
      | some t => pyStrip (nodeText t)
      | Option.none => msgSarlavha), by simp [dictGet_cons]⟩,
    ⟨url, by simp [dictGet_cons]⟩, ?_⟩
  · cases hpi : pythonInt ((pySplit ((pySplit url "/").getLastD "") "-").headD "") with
    | none => exact Or.inl (by simp [dictGet_cons, hpi, pyOptInt])
    | some i => exact Or.inr ⟨i, by simp [dictGet_cons, hpi, pyOptInt]⟩
  · rcases imgUrlPy_cases (findFirst (fun n => isElem n "img") item) with hc | ⟨s, hc⟩
    · exact Or.inl (by simp [dictGet_cons, hc])
    · exact Or.inr ⟨s, by simp [dictGet_cons, hc]⟩

/-- Witness for C1's amended claim on a concrete home page. -/
theorem c1_witness :
    c1item.map Prod.fst = ["id", "title", "url", "image_url"] ∧
    (∃ s, dictGet c1item "title" = some (PyVal.str s)) :=
  ⟨(c1_theorem c1doc [c1item] rfl c1item (List.mem_cons_self _ _)).1,
   (c1_theorem c1doc [c1item] rfl c1item (List.mem_cons_self _ _)).2.2.1⟩

theorem subscr_map_ok {img : Node} {u : String}
    (h : (subscr img "src").map (fun s => BASE_URL ++ s) = Except.ok u) :
    ∃ r, attrGet img "src" = some r ∧ u = BASE_URL ++ r := by
  rw [subscr] at h
  cases hat : attrGet img "src" with
  | none =>
    rw [hat] at h
    simp [Except.map] at h
  | some r =>
    rw [hat] at h
    simp [Except.map] at h
    exact ⟨r, rfl, h.symm⟩

/-- C8: every non-null absolute image URL contained in a record produced
by the card extractor, the student detail extractor, the news detail
extractor or the news listing equals BASE_URL concatenated with a relative
path found in a src attribute of an img element of the input markup. -/
theorem c8_theorem :
    (∀ item d u, parse_student_card item = Except.ok d →
      dictGet d "image_url" = some (PyVal.str u) →
      ∃ r, r ∈ imgSrcs item ∧ u = BASE_URL ++ r) ∧
    (∀ sid surl doc d l, get_student_by_id sid surl doc = Except.ok d →
      dictGet d "images" = some (PyVal.list l) →
      ∀ v ∈ l, ∃ r, r ∈ imgSrcs doc ∧ v = PyVal.str (BASE_URL ++ r)) ∧
    (∀ nid nurl doc d l, get_news_by_id nid nurl doc = Except.ok d →
      dictGet d "images" = some (PyVal.list l) →
      ∀ v ∈ l, ∃ r, r ∈ imgSrcs doc ∧ v = PyVal.str (BASE_URL ++ r)) ∧
    (∀ doc l, get_all_news doc = Except.ok l →
      ∀ d ∈ l, ∀ u, dictGet d "image_url" = some (PyVal.str u) →
        ∃ r, r ∈ imgSrcs doc ∧ u = BASE_URL ++ r) := by
  refine ⟨?_, ?_, ?_, ?_⟩
  · intro item d u hok hiu
    obtain ⟨url, hu, hd⟩ := parse_student_card_ok hok
    subst hd
    have himg : imgUrlPy (findFirst (fun n => isElem n "img") item) = PyVal.str u := by
      simpa [dictGet_cons] using hiu
    obtain ⟨im, r, hfi, hat, hur⟩ := imgUrlPy_str himg
    have hmem := findFirst_mem hfi
    exact ⟨r, mem_imgSrcs hmem.1 hmem.2 hat, hur⟩
  · intro sid surl doc d l hok hil v hv
    obtain ⟨art, fd, images, hart, hfd, him, hdi⟩ := get_student_by_id_ok hok
    rw [hil] at hdi
    injection hdi with hdi
    injection hdi with hdi
    rw [hdi] at hv
    obtain ⟨u2, hu2, hv2⟩ := List.mem_map.mp hv
    obtain ⟨img, himg, hsub⟩ := mapME_ok_mem him u2 hu2
    obtain ⟨r, hat, hu2r⟩ := subscr_map_ok hsub
    have h1 := findAll_mem himg
    have h2 := findFirst_mem hfd
    have h3 := findFirst_mem hart
    have hfddoc : fd ∈ allNodes (childrenOf doc) :=
      mem_allNodes_trans (childrenOf doc) art fd h3.1 h2.1
    have himgdoc : img ∈ allNodes (childrenOf doc) :=
      mem_allNodes_trans (childrenOf doc) fd img hfddoc h1.1
    refine ⟨r, mem_imgSrcs himgdoc h1.2 hat, ?_⟩
    rw [← hv2, hu2r]
  · intro nid nurl doc d l hok hil v hv
    obtain ⟨art, hart, hcases⟩ := get_news_by_id_ok hok
    rcases hcases with ⟨hnone, _, hdi⟩ | ⟨cd, images, hcd, him, _, hdi⟩
    · rw [hil] at hdi
      injection hdi with hdi
      injection hdi with hdi
      rw [hdi] at hv
      simp at hv
    · rw [hil] at hdi
      injection hdi with hdi
      injection hdi with hdi
      rw [hdi] at hv
      obtain ⟨u2, hu2, hv2⟩ := List.mem_map.mp hv
      obtain ⟨img, himg, hsub⟩ := mapME_ok_mem him u2 hu2
      obtain ⟨r, hat, hu2r⟩ := subscr_map_ok hsub
      have h1 := findAll_mem himg
      have h2 := findFirst_mem hcd
      have h3 := findFirst_mem hart
      have hcddoc : cd ∈ allNodes (childrenOf doc) :=
        mem_allNodes_trans (childrenOf doc) art cd h3.1 h2.1
      have himgdoc : img ∈ allNodes (childrenOf doc) :=
        mem_allNodes_trans (childrenOf doc) cd img hcddoc h1.1
      refine ⟨r, mem_imgSrcs himgdoc h1.2 hat, ?_⟩
      rw [← hv2, hu2r]
  · intro doc l hok d hd u hiu
    obtain ⟨x, anc, parent, hf, hp, hm, hne⟩ := get_all_news_ok hok
    obtain ⟨item, hitem, hpd⟩ := mapME_ok_mem hm d hd
    obtain ⟨url, husub, hdd⟩ := parseNewsItem_ok hpd
    subst hdd
    have himg : imgUrlPy (findFirst (fun n => isElem n "img") item) = PyVal.str u := by
      simpa [dictGet_cons] using hiu
    obtain ⟨im, r, hfi, hat, hur⟩ := imgUrlPy_str himg
    have hfa := findFirstAnc_mem hf
    have hparent_anc : parent ∈ anc := List.mem_of_find?_eq_some hp
    have hparent : parent ∈ allNodes (childrenOf doc) := by
      rcases allNodesAnc_anc_mem (childrenOf doc) [] x anc hfa.1 parent hparent_anc with h2 | h2
      · exact h2
      · simp at h2
    have hitem2 := findAll_mem hitem
    have hitemdoc : item ∈ allNodes (childrenOf doc) :=
      mem_allNodes_trans (childrenOf doc) parent item hparent hitem2.1
    have hfim := findFirst_mem hfi
    have himdoc : im ∈ allNodes (childrenOf doc) :=
      mem_allNodes_trans (childrenOf doc) item im hitemdoc hfim.1
    exact ⟨r, mem_imgSrcs himdoc hfim.2 hat, hur⟩

/-- Witness for C8 at concrete inputs for all four extractors. -/
theorem c8_witness :
    (∃ r, r ∈ imgSrcs c8card ∧ BASE_URL ++ "/uploads/7.jpg" = BASE_URL ++ r) ∧
    (∃ r, r ∈ imgSrcs c8sdoc ∧
      PyVal.str (BASE_URL ++ "/uploads/a.png") = PyVal.str (BASE_URL ++ r)) ∧
    (∃ r, r ∈ imgSrcs c8sdoc ∧
      PyVal.str (BASE_URL ++ "/uploads/a.png") = PyVal.str (BASE_URL ++ r)) ∧
    (∃ r, r ∈ imgSrcs c8newsdoc ∧ BASE_URL ++ "/uploads/n.png" = BASE_URL ++ r) :=
  ⟨c8_theorem.1 c8card c8cardDict (BASE_URL ++ "/uploads/7.jpg") rfl rfl,
   c8_theorem.2.1 7 "u" c8sdoc c8sDict [PyVal.str (BASE_URL ++ "/uploads/a.png")] rfl rfl
     (PyVal.str (BASE_URL ++ "/uploads/a.png")) (List.mem_cons_self _ _),
   c8_theorem.2.2.1 7 "n" c8sdoc c8nDict [PyVal.str (BASE_URL ++ "/uploads/a.png")] rfl rfl
     (PyVal.str (BASE_URL ++ "/uploads/a.png")) (List.mem_cons_self _ _),
   c8_theorem.2.2.2 c8newsdoc [c8nlDict] rfl c8nlDict (List.mem_cons_self _ _)
     (BASE_URL ++ "/uploads/n.png") rfl⟩

theorem toList_append (a b : String) : (a ++ b).toList = a.toList ++ b.toList := rfl

theorem leadsWith_iff (p : List Char) : ∀ l, leadsWith p l = true ↔ ∃ t, l = p ++ t := by
  induction p with
  | nil =>
    intro l
    simp [leadsWith]
  | cons a as ih =>
    intro l
    cases l with
    | nil => simp [leadsWith]
    | cons c cs =>
      rw [leadsWith, Bool.and_eq_true]
      constructor
      · intro h
        obtain ⟨h1, h2⟩ := h
        have ha : a = c := by simpa using h1
        obtain ⟨t, ht⟩ := (ih cs).mp h2
        subst ha
        exact ⟨t, by rw [ht]; rfl⟩
      · rintro ⟨t, ht⟩
        rw [List.cons_append] at ht
        injection ht with h1 h2
        subst h1
        exact ⟨by simp, (ih cs).mpr ⟨t, h2⟩⟩

theorem splitOnChars_ne_nil (sep : List Char) :
    ∀ (fuel : Nat) (l acc : List Char), splitOnChars sep fuel l acc ≠ [] := by
  intro fuel
  induction fuel with
  | zero =>
    intro l acc
    cases l <;> simp [splitOnChars]
  | succ f ih =>
    intro l acc
    cases l with
    | nil => simp [splitOnChars]
    | cons c rest =>
      rw [splitOnChars]
      split
      · simp
      · exact ih rest (c :: acc)

theorem nil_ne_around (sep : List Char) (hsep : sep ≠ []) :
    ¬ ∃ l1 l2, ([] : List Char) = l1 ++ sep ++ l2 := by
  rintro ⟨l1, l2, hh⟩
  cases sep with
  | nil => exact hsep rfl
  | cons a as =>
    have := congrArg List.length hh
    simp [List.length_append] at this
    omega

theorem splitOnChars_two_iff (sep : List Char) (hsep : sep ≠ []) :
    ∀ (fuel : Nat) (l acc : List Char), l.length ≤ fuel →
      (2 ≤ (splitOnChars sep fuel l acc).length ↔ ∃ l1 l2, l = l1 ++ sep ++ l2) := by
  intro fuel
  induction fuel with
  | zero =>
    intro l acc hl
    have hnil : l = [] := by
      cases l with
      | nil => rfl
      | cons c r => simp at hl
    subst hnil
    rw [splitOnChars]
    constructor
    · intro h
      simp at h
    · intro h
      exact absurd h (nil_ne_around sep hsep)
  | succ f ih =>
    intro l acc hl
    cases l with
    | nil =>
      rw [splitOnChars]
      constructor
      · intro h
        simp at h
      · intro h
        exact absurd h (nil_ne_around sep hsep)
    | cons c rest =>
      rw [splitOnChars]
      split
      · rename_i hlw
        constructor
        · intro _
          obtain ⟨t, ht⟩ := (leadsWith_iff sep (c :: rest)).mp hlw
          exact ⟨[], t, by simpa using ht⟩
        · intro _
          have hne := splitOnChars_ne_nil sep f (rest.drop (sep.length - 1)) []
          cases hsp : splitOnChars sep f (rest.drop (sep.length - 1)) [] with
          | nil => exact absurd hsp hne
          | cons q qs => simp [hsp]
      · rename_i hlw
        have hrest : rest.length ≤ f := by
          simp at hl
          omega
        rw [ih rest (c :: acc) hrest]
        constructor
        · rintro ⟨l1, l2, hh⟩
          exact ⟨c :: l1, l2, by simp [hh]⟩
        · rintro ⟨l1, l2, hh⟩
          cases l1 with
          | nil =>
            exact absurd ((leadsWith_iff sep (c :: rest)).mpr ⟨l2, by simpa using hh⟩) hlw
          | cons a l1t =>
            rw [List.cons_append, List.cons_append] at hh
            injection hh with h1 h2
            exact ⟨l1t, l2, by simp [h2]⟩

theorem containsSub_iff (s pat : String) (hp : pat.toList ≠ []) :
    containsSub s pat = true ↔ ∃ l1 l2, s.toList = l1 ++ pat.toList ++ l2 := by
  rw [containsSub, decide_eq_true_eq, pySplit, List.length_map]
  exact splitOnChars_two_iff pat.toList hp s.toList.length s.toList [] (le_refl _)

theorem containsSub_mono {s t pat : String} (hp : pat.toList ≠ [])
    (hs : containsSub s pat = true)
    (hinf : ∃ w1 w2, t.toList = w1 ++ s.toList ++ w2) :
    containsSub t pat = true := by
  obtain ⟨l1, l2, hl⟩ := (containsSub_iff s pat hp).mp hs
  obtain ⟨w1, w2, hw⟩ := hinf
  refine (containsSub_iff t pat hp).mpr ⟨w1 ++ l1, l2 ++ w2, ?_⟩
  rw [hw, hl]
  simp [List.append_assoc]

theorem nodeText_infix_of_mem :
    ∀ (l : List Node) (x : Node), x ∈ allNodes l →
      ∃ w1 w2, (nodeTextList l).toList = w1 ++ (nodeText x).toList ++ w2
  | [], x, hx => by simp [allNodes] at hx
  | c :: rest, x, hx => by
    rw [allNodes, List.mem_append] at hx
    have hconsEq : (nodeTextList (c :: rest)).toList =
        (nodeText c).toList ++ (nodeTextList rest).toList := by
      rw [nodeTextList, toList_append]
    rcases hx with hx | hx
    · cases c with
      | text s =>
        simp [allNodesTree] at hx
        subst hx
        exact ⟨[], (nodeTextList rest).toList, by rw [hconsEq]; simp [nodeText]⟩
      | elem t cl ats ch =>
        rw [allNodesTree, List.mem_cons] at hx
        rcases hx with hx | hx
        · subst hx
          exact ⟨[], (nodeTextList rest).toList, by rw [hconsEq]; simp⟩
        · obtain ⟨w1, w2, hw⟩ := nodeText_infix_of_mem ch x hx
          refine ⟨w1, w2 ++ (nodeTextList rest).toList, ?_⟩
          rw [hconsEq, show nodeText (Node.elem t cl ats ch) = nodeTextList ch from rfl, hw]
          simp [List.append_assoc]
    · obtain ⟨w1, w2, hw⟩ := nodeText_infix_of_mem rest x hx
      exact ⟨(nodeText c).toList ++ w1, w2, by rw [hconsEq, hw]; simp [List.append_assoc]⟩
termination_by l => sizeOf l

theorem nodeText_infix_anc :
    ∀ (l : List Node) (a0 : List Node) (x : Node) (anc : List Node),
      (x, anc) ∈ allNodesAnc a0 l → ∀ y ∈ anc, y ∈ a0 ∨
        ∃ w1 w2, (nodeText y).toList = w1 ++ (nodeText x).toList ++ w2
  | [], a0, x, anc, h, y, hy => by simp [allNodesAnc] at h
  | c :: rest, a0, x, anc, h, y, hy => by
    rw [allNodesAnc, List.mem_append] at h
    rcases h with h | h
    · cases c with
      | text s =>
        simp [allNodesAncTree] at h
        obtain ⟨h1, h2⟩ := h
        subst h2
        exact Or.inl hy
      | elem t cl ats ch =>
        rw [allNodesAncTree, List.mem_cons] at h
        rcases h with h | h
        · cases h
          exact Or.inl hy
        · rcases nodeText_infix_anc ch (Node.elem t cl ats ch :: a0) x anc h y hy with h2 | h2
          · rcases List.mem_cons.mp h2 with h3 | h3
            · subst h3
              right
              have hxm : x ∈ allNodes ch := allNodesAnc_fst_mem h
              obtain ⟨w1, w2, hw⟩ := nodeText_infix_of_mem ch x hxm
              exact ⟨w1, w2, hw⟩
            · exact Or.inl h3
          · exact Or.inr h2
    · exact nodeText_infix_anc rest a0 x anc h y hy
termination_by l => sizeOf l

theorem head_filter_anc_false (p : Node → Bool) :
    ∀ (l : List Node) (a0 : List Node) (x : Node) (anc : List Node),
      (∀ y ∈ a0, p y = false) →
      ((allNodesAnc a0 l).filter (fun q => p q.1)).head? = some (x, anc) →
      ∀ y ∈ anc, p y = false
  | [], a0, x, anc, ha, h, y, hy => by simp [allNodesAnc] at h
  | c :: rest, a0, x, anc, ha, h, y, hy => by
    rw [allNodesAnc, List.filter_append] at h
    cases c with
    | text s =>
      rw [show allNodesAncTree a0 (Node.text s) = [(Node.text s, a0)] from rfl] at h
      by_cases hp : p (Node.text s) = true
      · rw [show List.filter (fun q => p q.1) [(Node.text s, a0)] = [(Node.text s, a0)] from
          by simp [hp]] at h
        rw [List.cons_append] at h
        simp at h
        obtain ⟨h1, h2⟩ := h
        subst h2
        exact ha y hy
      · rw [show List.filter (fun q => p q.1) [(Node.text s, a0)] = [] from
          by simp [List.filter_cons, hp]] at h
        rw [List.nil_append] at h
        exact head_filter_anc_false p rest a0 x anc ha h y hy
    | elem t cl ats ch =>
      rw [show allNodesAncTree a0 (Node.elem t cl ats ch) =
        (Node.elem t cl ats ch, a0) :: allNodesAnc (Node.elem t cl ats ch :: a0) ch from rfl] at h
      rw [List.filter_cons] at h
      by_cases hp : p (Node.elem t cl ats ch) = true
      · rw [if_pos (by simpa using hp)] at h
        rw [List.cons_append] at h
        simp at h
        obtain ⟨h1, h2⟩ := h
        subst h2
        exact ha y hy
      · rw [if_neg (by simpa using hp)] at h
        cases hft : (allNodesAnc (Node.elem t cl ats ch :: a0) ch).filter (fun q => p q.1) with
        | nil =>
          rw [hft, List.nil_append] at h
          exact head_filter_anc_false p rest a0 x anc ha h y hy
        | cons q qs =>
          rw [hft, List.cons_append] at h
          simp at h
          have hch : ((allNodesAnc (Node.elem t cl ats ch :: a0) ch).filter
              (fun q => p q.1)).head? = some (x, anc) := by
            rw [hft, h]
            rfl
          have ha2 : ∀ y2 ∈ (Node.elem t cl ats ch :: a0), p y2 = false := by
            intro y2 hy2
            rcases List.mem_cons.mp hy2 with h3 | h3
            · subst h3
              simpa using hp
            · exact ha y2 h3
          exact head_filter_anc_false p ch (Node.elem t cl ats ch :: a0) x anc ha2 hch y hy
termination_by l => sizeOf l

theorem get_freelancers_never_ok (doc : Node) (l : List PyDict) :
    get_freelancers doc ≠ Except.ok l := by
  intro h
  rw [get_freelancers] at h
  split at h
  · cases h
  · rename_i x anc hf
    split at h
    · cases h
    · rename_i sect hp
      rw [findFirstAnc] at hf
      have hxmem : (x, anc) ∈ allNodesAnc [] (childrenOf doc) := by
        have hm := mem_of_head? hf
        exact (List.mem_filter.mp hm).1
      have hx : isFreelancerHeader x = true := by
        have hm := mem_of_head? hf
        exact (List.mem_filter.mp hm).2
      have hanc : ∀ y ∈ anc, isFreelancerHeader y = false :=
        head_filter_anc_false isFreelancerHeader (childrenOf doc) [] x anc
          (fun y hy => absurd hy (List.not_mem_nil y)) hf
      have hsectmem : sect ∈ anc := List.mem_of_find?_eq_some hp
      have hsectdiv : isDivClass "sect" sect = true := List.find?_some hp
      have hinf := nodeText_infix_anc (childrenOf doc) [] x anc hxmem sect hsectmem
      rcases hinf with h2 | h2
      · simp at h2
      · have hxph : containsSub (nodeText x) FREELANCER_PHRASE = true := by
          rw [isFreelancerHeader, Bool.and_eq_true] at hx
          exact hx.2
        have hphne : FREELANCER_PHRASE.toList ≠ [] := by decide
        have hsph : containsSub (nodeText sect) FREELANCER_PHRASE = true :=
          containsSub_mono hphne hxph h2
        have hsdiv : isElem sect "div" = true := by
          rw [isDivClass, Bool.and_eq_true] at hsectdiv
          exact hsectdiv.1
        have hshead : isFreelancerHeader sect = true := by
          rw [isFreelancerHeader, Bool.and_eq_true]
          exact ⟨hsdiv, hsph⟩
        rw [hanc sect hsectmem] at hshead
        cases hshead

theorem web_home_ok_ctx {doc : Node} {ctx : HomeCtx} (h : web_home doc = Except.ok ctx) :
    ctx = ⟨[], [], [], some msgWebError⟩ := by
  rw [web_home] at h
  split at h
  · cases h
  · cases h
    rfl
  · split at h
    · cases h
    · cases h
      rfl
    · split at h
      · cases h
      · cases h
        rfl
      · rename_i fl hfl
        exact absurd hfl (get_freelancers_never_ok doc fl)

/-- C10 (code bug): the take-6 truncation branch of `web_home` is dead
code. In general `get_freelancers` can never succeed — the first div whose
text contains the banner phrase is always the outermost such div, so its
ancestor chain contains no div containing the phrase, hence no sect
container is ever found — so every successful `web_home` render is the
error context with empty lists, never a truncated data context. On the
fully well-formed home page `c10doc` the JSON students listing returns all
seven records untruncated while `get_freelancers` raises the
AttributeError, which `web_home` propagates. -/
theorem c10_theorem :
    (∀ doc l, get_freelancers doc ≠ Except.ok l) ∧
    (∀ doc ctx, web_home doc = Except.ok ctx → ctx = ⟨[], [], [], some msgWebError⟩) ∧
    (∃ l, get_all_students c10doc = Except.ok l ∧ l.length = 7) ∧
    (∃ l, get_all_news c10doc = Except.ok l ∧ l.length = 1) ∧
    get_freelancers c10doc = Except.error (Err.py (PyErr.attributeError msgNoneFindAll)) ∧
    web_home c10doc = Except.error (PyErr.attributeError msgNoneFindAll) :=
  ⟨get_freelancers_never_ok, fun _ _ h => web_home_ok_ctx h,
   ⟨_, rfl, rfl⟩, ⟨_, rfl, rfl⟩, rfl, rfl⟩

/-- Witness for C10: a home page whose student listing 404s renders the
inline-error context, and the theorem pins that context down. -/
theorem c10_witness :
    web_home c6empty = Except.ok ⟨[], [], [], some msgWebError⟩ ∧
    (⟨[], [], [], some msgWebError⟩ : HomeCtx) = ⟨[], [], [], some msgWebError⟩ :=
  ⟨rfl, c10_theorem.2.1 c6empty ⟨[], [], [], some msgWebError⟩ rfl⟩
